import Mathlib

/-!
# BUS socket: identity tagging and loopback suppression

A shallow embedding of `src/protocols/bus/bus.c` (nanomsg).  The BUS socket
sits on top of the raw XBUS engine: `nn_bus_send` stamps the 64-bit node id
into the message header, `nn_bus_recv` pulls messages from the engine, drops
the malformed and the self-originated ones and strips the header of the
first acceptable one.

Conventions of the embedding:

* bytes are `Nat` (a `uint8_t` holds a value below 256), `uint64_t` values
  are `Nat` below `2 ^ 64`, `int` return codes are `Int`;
* a `struct nn_chunkref` is the list of its bytes, so `nn_chunkref_size` is
  `List.length`, `nn_chunkref_init (c, 0)` leaves `[]`;
* a C call either returns, or dies in `nn_assert` / `errnum_assert`
  (`nn_err_abort`), or, for the `while (1)` loop, is still running when the
  fuel of the model is spent: see `Outcome`;
* the XBUS engine (`nn_xbus_send`, `nn_xbus_recv`) is not part of the file
  and is a parameter of the embedding: see `Engine`.
-/

namespace Bus

/-! ## Data model -/

/-- The message envelope `struct nn_msg`: a header chunk and a body chunk. -/
structure nn_msg where
  hdr : List Nat
  body : List Nat
deriving DecidableEq

/-- The socket object `struct nn_bus`: the embedded engine state `xbus`
(of a type `E` chosen by the engine) and the 64-bit `nodeid`. -/
structure nn_bus (E : Type) where
  xbus : E
  nodeid : Nat
deriving DecidableEq

/-- How a call of the C code ends. -/
inductive Outcome (σ : Type) where
  /-- The call returned `rc`, leaving the state `s`. -/
  | ret (rc : Int) (s : σ)
  /-- An `nn_assert` or `errnum_assert` failed in state `s`: the process aborts,
  nothing is returned to the caller. -/
  | abort (s : σ)
  /-- The loop was still running when the fuel ran out. -/
  | spin
deriving DecidableEq

/-- The errno value `EAGAIN` of the host platform (11 on Linux); the header
that defines it is a system header. -/
def EAGAIN : Int := 11

/-- The errno value `EINVAL` of the host platform (22 on Linux); the header
that defines it is a system header. -/
def EINVAL : Int := 22

/-- The raw XBUS engine the BUS socket delegates to.  `nn_xbus_send st msg`
gives the return code and the engine state after the call; `nn_xbus_recv st`
gives the return code, the message written to `*msg` (meaningful only when the
return code is 0) and the engine state after the call. -/
structure Engine (E : Type) where
  nn_xbus_send : E → nn_msg → Int × E
  nn_xbus_recv : E → Int × nn_msg × E

/-! ## Wire helpers (`utils/wire.c`, not part of the file) -/

/-- Modelled from the spec: `nn_putll`, which is declared in `utils/wire.h`
and missing from the sources at hand.  The spec fixes the wire format as
"exactly 8 bytes encoding the sender's Node Identity, using a fixed big-endian
(network) byte order": the most significant byte comes first.  The argument is
a `uint64_t`, so only its low 64 bits are written. -/
def nn_putll (val : Nat) : List Nat :=
  [ (val >>> 56) % 256, (val >>> 48) % 256, (val >>> 40) % 256, (val >>> 32) % 256,
    (val >>> 24) % 256, (val >>> 16) % 256, (val >>> 8) % 256, val % 256 ]

/-- Modelled from the spec: `nn_getll`, which is declared in `utils/wire.h`
and missing from the sources at hand.  It decodes the first 8 bytes of the
buffer "as network-byte-order Node Identity".  Each buffer cell is a
`uint8_t`; a cell the list does not have reads as 0 (the code only calls it on
a chunk of exactly 8 bytes). -/
def nn_getll (buf : List Nat) : Nat :=
  ((buf.getD 0 0 % 256) <<< 56) + ((buf.getD 1 0 % 256) <<< 48) +
  ((buf.getD 2 0 % 256) <<< 40) + ((buf.getD 3 0 % 256) <<< 32) +
  ((buf.getD 4 0 % 256) <<< 24) + ((buf.getD 5 0 % 256) <<< 16) +
  ((buf.getD 6 0 % 256) <<< 8) + (buf.getD 7 0 % 256)

/-! ## The BUS socket functions -/

/-- The function `nn_bus_send` (bus.c:91-109).  The header must be empty
(`nn_assert`), it is replaced by the 8-byte encoding of `bus->nodeid`, the
tagged message goes to `nn_xbus_send`, whose return code must be 0
(`errnum_assert`); then 0 is returned. -/
def nn_bus_send {E : Type} (eng : Engine E) (bus : nn_bus E) (msg : nn_msg) :
    Outcome (nn_bus E) :=
  if msg.hdr.length = 0 then
    let msg1 : nn_msg := { msg with hdr := nn_putll bus.nodeid }
    let r := eng.nn_xbus_send bus.xbus msg1
    let bus1 : nn_bus E := { bus with xbus := r.2 }
    if r.1 = 0 then Outcome.ret 0 bus1 else Outcome.abort bus1
  else Outcome.abort bus

/-- The function `nn_bus_recv` (bus.c:111-146).  One unit of fuel is one
iteration of the `while (1)` loop.  The state carried by the outcome is the
socket together with the content of `*msg`: `some m` when a message is handed
to the caller, `none` when `*msg` holds no message. -/
def nn_bus_recv {E : Type} (eng : Engine E) :
    Nat → nn_bus E → Outcome (nn_bus E × Option nn_msg)
  | 0, _ => Outcome.spin
  | fuel + 1, bus =>
    let r := eng.nn_xbus_recv bus.xbus
    let bus1 : nn_bus E := { bus with xbus := r.2.2 }
    if r.1 = -EAGAIN then Outcome.ret (-EAGAIN) (bus1, none)
    else if r.1 ≠ 0 then Outcome.abort (bus1, none)
    else if r.2.1.hdr.length ≠ 8 then nn_bus_recv eng fuel bus1
    else if nn_getll r.2.1.hdr = bus.nodeid then nn_bus_recv eng fuel bus1
    else Outcome.ret 0 (bus1, some { r.2.1 with hdr := [] })

/-- The function `nn_bus_sethdr` (bus.c:148-153): the return code and the
message afterwards.  `hdr` is the content of the caller's buffer. -/
def nn_bus_sethdr (msg : nn_msg) (_hdr : List Nat) (hdrlen : Nat) : Int × nn_msg :=
  if hdrlen ≠ 0 then (-EINVAL, msg) else (0, msg)

/-- The function `nn_bus_gethdr` (bus.c:155-159): the return code, the message
afterwards, the caller's buffer afterwards and the value stored in `*hdrlen`.
The second and third arguments are the buffer and `*hdrlen` before the call. -/
def nn_bus_gethdr (msg : nn_msg) (hdr : List Nat) (_hdrlen : Nat) :
    Int × nn_msg × List Nat × Nat :=
  (0, msg, hdr, 0)

/-! ## A finite-queue engine -/

/-- The state of the queue engine: the messages waiting for delivery in FIFO
order and the messages handed to `nn_xbus_send` so far (oldest first). -/
structure nn_xbus where
  inq : List nn_msg
  sent : List nn_msg
deriving DecidableEq

/-- Modelled from the spec: the Multicast Fan-out Engine, whose code
(`xbus.c`) is missing from the sources at hand, as a finite delivery queue.
The spec's contract is `engine.recv(message) -> Ok | WouldBlock | FatalError`,
"delivers exactly one message per call", and `engine.send(message) -> Ok |
WouldBlock | FatalError`.  Here `recv` delivers the front of the queue with
code 0 and reports `-EAGAIN` on an empty queue; `send` accepts every
message with code 0 and records it. -/
def queueEngine : Engine nn_xbus where
  nn_xbus_send := fun st msg => (0, { st with sent := st.sent ++ [msg] })
  nn_xbus_recv := fun st =>
    match st.inq with
    | [] => (-EAGAIN, { hdr := [], body := [] }, st)
    | m :: rest => (0, m, { st with inq := rest })

/-- An engine that counts the calls of `nn_xbus_recv` made on `eng`: the
second component of the state is the number of pulls so far. -/
def counted {E : Type} (eng : Engine E) : Engine (E × Nat) where
  nn_xbus_send := fun st msg =>
    ((eng.nn_xbus_send st.1 msg).1, ((eng.nn_xbus_send st.1 msg).2, st.2))
  nn_xbus_recv := fun st =>
    ((eng.nn_xbus_recv st.1).1, (eng.nn_xbus_recv st.1).2.1,
      ((eng.nn_xbus_recv st.1).2.2, st.2 + 1))

/-- Modelled from the spec: a Fan-out Engine whose `send` cannot take the
message now and reports the "would block" condition `-EAGAIN`
(`engine.send(message) -> Ok | WouldBlock | FatalError`), leaving its state
as it is; its `recv` is that of the queue engine. -/
def busyEngine : Engine nn_xbus where
  nn_xbus_send := fun st _ => (-EAGAIN, st)
  nn_xbus_recv := queueEngine.nn_xbus_recv

/-- Modelled from the spec: a Fan-out Engine whose `recv` follows a script,
one entry (return code and message) per pull, so that any of the three results
`Ok | WouldBlock | FatalError` of `engine.recv` can occur at any pull; when the
script is used up it reports `-EAGAIN`.  Its `send` accepts every message. -/
def scriptEngine : Engine (List (Int × nn_msg)) where
  nn_xbus_send := fun st _ => (0, st)
  nn_xbus_recv := fun st =>
    match st with
    | [] => (-EAGAIN, { hdr := [], body := [] }, [])
    | r :: rest => (r.1, r.2, rest)

/-- The engine state after `i` calls of `nn_xbus_recv`, starting from `st`. -/
def afterPulls {E : Type} (eng : Engine E) : Nat → E → E
  | 0, st => st
  | i + 1, st => afterPulls eng i (eng.nn_xbus_recv st).2.2

/-! ## Callers of the socket -/

/-- A caller that calls `nn_bus_recv` again and again until it returns
`-EAGAIN`, collecting the messages handed over by the calls that return 0
(oldest first).  `fuel` bounds the loop iterations of each call, the second
argument bounds the number of calls; the result is `none` when a call does not
return or when that bound is reached. -/
def recv_until_eagain {E : Type} (eng : Engine E) (fuel : Nat) :
    Nat → nn_bus E → Option (List nn_msg × nn_bus E)
  | 0, _ => none
  | calls + 1, bus =>
    match nn_bus_recv eng fuel bus with
    | Outcome.ret rc (bus1, out) =>
      if rc = -EAGAIN then some ([], bus1)
      else
        match out, recv_until_eagain eng fuel calls bus1 with
        | some m, some (ms, bus2) => some (m :: ms, bus2)
        | _, _ => none
    | _ => none

/-- The spec's words for the stream of accepted messages, "a filtering
projection over the Fan-out Engine's delivery stream": the messages of `q`
whose header has 8 bytes and decodes to an id other than the local id `n`, in
the order of `q`, each with an empty header and its own body. -/
def spec_filtering_projection (n : Nat) (q : List nn_msg) : List nn_msg :=
  (q.filter (fun m => decide (m.hdr.length = 8 ∧ nn_getll m.hdr ≠ n))).map
    (fun m => { hdr := [], body := m.body })

/-- A call of one of the four entries `nn_bus_send`, `nn_bus_recv`,
`nn_bus_sethdr`, `nn_bus_gethdr` of the table `nn_bus_sockbase_vfptr`, with
its inputs (for `nn_bus_recv`: the fuel of the loop). -/
inductive Call where
  | send (msg : nn_msg)
  | recv (fuel : Nat)
  | sethdr (msg : nn_msg) (hdr : List Nat) (hdrlen : Nat)
  | gethdr (msg : nn_msg) (hdr : List Nat) (hdrlen : Nat)

/-- The socket after one call that returns, `none` when the call does not
return.  `nn_bus_sethdr` and `nn_bus_gethdr` are handed the message only
(bus.c:148, 155), not the socket, which therefore stays as it is. -/
def Call.run {E : Type} (eng : Engine E) (bus : nn_bus E) : Call → Option (nn_bus E)
  | Call.send msg =>
    match nn_bus_send eng bus msg with
    | Outcome.ret _ bus1 => some bus1
    | _ => none
  | Call.recv fuel =>
    match nn_bus_recv eng fuel bus with
    | Outcome.ret _ (bus1, _) => some bus1
    | _ => none
  | Call.sethdr msg hdr hdrlen =>
    match nn_bus_sethdr msg hdr hdrlen with
    | (_, _) => some bus
  | Call.gethdr msg hdr hdrlen =>
    match nn_bus_gethdr msg hdr hdrlen with
    | (_, _) => some bus

/-- The socket after a sequence of calls that all return. -/
def runCalls {E : Type} (eng : Engine E) : nn_bus E → List Call → Option (nn_bus E)
  | bus, [] => some bus
  | bus, c :: cs =>
    match c.run eng bus with
    | some bus1 => runCalls eng bus1 cs
    | none => none

/-! ## Basic facts -/

theorem nn_putll_length (n : Nat) : (nn_putll n).length = 8 := rfl

theorem nn_getll_putll (n : Nat) (h : n < 2 ^ 64) : nn_getll (nn_putll n) = n := by
  simp only [nn_getll, nn_putll, List.getD_cons_zero, List.getD_cons_succ,
    Nat.shiftRight_eq_div_pow, Nat.shiftLeft_eq]
  norm_num at h ⊢
  omega

/-- The queue engine on an empty queue: one iteration, `-EAGAIN`. -/
theorem recv_nil (s : List nn_msg) (n fuel : Nat) :
    nn_bus_recv queueEngine (fuel + 1) ⟨⟨[], s⟩, n⟩ =
      Outcome.ret (-EAGAIN) (⟨⟨[], s⟩, n⟩, none) := by
  simp [nn_bus_recv, queueEngine]

/-- The queue engine on a non-empty queue: one iteration of the loop either
hands the stripped front message to the caller or goes on with the rest. -/
theorem recv_cons (m : nn_msg) (q s : List nn_msg) (n fuel : Nat) :
    nn_bus_recv queueEngine (fuel + 1) ⟨⟨m :: q, s⟩, n⟩ =
      if m.hdr.length = 8 ∧ nn_getll m.hdr ≠ n then
        Outcome.ret 0 (⟨⟨q, s⟩, n⟩, some ⟨[], m.body⟩)
      else nn_bus_recv queueEngine fuel ⟨⟨q, s⟩, n⟩ := by
  have h0 : ¬ ((0 : Int) = -EAGAIN) := by decide
  by_cases h8 : m.hdr.length = 8
  · by_cases hn : nn_getll m.hdr = n
    · simp [nn_bus_recv, queueEngine, h0, h8, hn]
    · simp [nn_bus_recv, queueEngine, h0, h8, hn]
  · simp [nn_bus_recv, queueEngine, h0, h8]

/-- On the queue engine the outcome does not depend on the fuel once there is
more fuel than queued messages. -/
theorem recv_fuel_irrel (n : Nat) (s : List nn_msg) :
    ∀ (q : List nn_msg) (f g : Nat), q.length < f → q.length < g →
      nn_bus_recv queueEngine f ⟨⟨q, s⟩, n⟩ = nn_bus_recv queueEngine g ⟨⟨q, s⟩, n⟩
  | [], f + 1, g + 1, _, _ => by rw [recv_nil, recv_nil]
  | m :: q, f + 1, g + 1, hf, hg => by
    have hf1 : q.length < f := by simpa using hf
    have hg1 : q.length < g := by simpa using hg
    rw [recv_cons, recv_cons, recv_fuel_irrel n s q f g hf1 hg1]
  | _, 0, _, hf, _ => absurd hf (Nat.not_lt_zero _)
  | _, _ + 1, 0, _, hg => absurd hg (Nat.not_lt_zero _)

/-- On the queue engine the loop has ended when there is more fuel than
queued messages. -/
theorem recv_ne_spin (n : Nat) (s : List nn_msg) :
    ∀ (q : List nn_msg) (f : Nat), q.length < f →
      nn_bus_recv queueEngine f ⟨⟨q, s⟩, n⟩ ≠ Outcome.spin
  | [], f + 1, _ => by rw [recv_nil]; exact fun h => Outcome.noConfusion h
  | m :: q, f + 1, hf => by
    have hf1 : q.length < f := by simpa using hf
    rw [recv_cons]
    split
    · exact fun h => Outcome.noConfusion h
    · exact recv_ne_spin n s q f hf1
  | _, 0, hf => absurd hf (Nat.not_lt_zero _)

/-- What `nn_bus_send` does on a message with an empty header, for every
engine: one call of `nn_xbus_send` on the tagged message. -/
theorem send_of_empty_hdr {E : Type} (eng : Engine E) (bus : nn_bus E) (msg : nn_msg)
    (hm : msg.hdr.length = 0) :
    nn_bus_send eng bus msg =
      if (eng.nn_xbus_send bus.xbus ⟨nn_putll bus.nodeid, msg.body⟩).1 = 0 then
        Outcome.ret 0
          ⟨(eng.nn_xbus_send bus.xbus ⟨nn_putll bus.nodeid, msg.body⟩).2, bus.nodeid⟩
      else
        Outcome.abort
          ⟨(eng.nn_xbus_send bus.xbus ⟨nn_putll bus.nodeid, msg.body⟩).2, bus.nodeid⟩ := by
  simp [nn_bus_send, hm]

/-- On the queue engine `nn_bus_send` of a message with an empty header
returns 0 and has appended the tagged message to the log of sent messages. -/
theorem send_queue (n : Nat) (msg : nn_msg) (q0 s0 : List nn_msg)
    (hm : msg.hdr.length = 0) :
    nn_bus_send queueEngine ⟨⟨q0, s0⟩, n⟩ msg =
      Outcome.ret 0 ⟨⟨q0, s0 ++ [⟨nn_putll n, msg.body⟩]⟩, n⟩ := by
  rw [send_of_empty_hdr _ _ _ hm]
  simp [queueEngine]

/-- The counted queue engine on an empty queue: one pull, `-EAGAIN`. -/
theorem recv_counted_nil (s : List nn_msg) (k n fuel : Nat) :
    nn_bus_recv (counted queueEngine) (fuel + 1) ⟨(⟨[], s⟩, k), n⟩ =
      Outcome.ret (-EAGAIN) (⟨(⟨[], s⟩, k + 1), n⟩, none) := by
  simp [nn_bus_recv, queueEngine, counted]

/-- The counted queue engine on a non-empty queue: one pull, then either the
stripped front message is handed over or the loop goes on with the rest. -/
theorem recv_counted_cons (m : nn_msg) (q s : List nn_msg) (k n fuel : Nat) :
    nn_bus_recv (counted queueEngine) (fuel + 1) ⟨(⟨m :: q, s⟩, k), n⟩ =
      if m.hdr.length = 8 ∧ nn_getll m.hdr ≠ n then
        Outcome.ret 0 (⟨(⟨q, s⟩, k + 1), n⟩, some ⟨[], m.body⟩)
      else nn_bus_recv (counted queueEngine) fuel ⟨(⟨q, s⟩, k + 1), n⟩ := by
  have h0 : ¬ ((0 : Int) = -EAGAIN) := by decide
  by_cases h8 : m.hdr.length = 8
  · by_cases hn : nn_getll m.hdr = n
    · simp [nn_bus_recv, queueEngine, counted, h0, h8, hn]
    · simp [nn_bus_recv, queueEngine, counted, h0, h8, hn]
  · simp [nn_bus_recv, queueEngine, counted, h0, h8]

/-! ## The claims -/

/-- C1: on the queue engine, for every local node id `n` and every queue `q`,
whenever `nn_bus_recv` returns 0 the message `m` it hands to the caller has a
header of length 0 and comes from a message `d` of the queue whose header has
exactly 8 bytes and decodes (big-endian) to an id other than `n`: `m` is `d`
with the header emptied. -/
theorem recv_zero_surfaces_foreign (n : Nat) (s : List nn_msg) (fuel : Nat)
    (q : List nn_msg) (st : nn_bus nn_xbus) (out : Option nn_msg)
    (h : nn_bus_recv queueEngine fuel ⟨⟨q, s⟩, n⟩ = Outcome.ret 0 (st, out)) :
    ∃ m d, out = some m ∧ m.hdr.length = 0 ∧ d ∈ q ∧ d.hdr.length = 8 ∧
      nn_getll d.hdr ≠ n ∧ m = { d with hdr := [] } := by
  induction fuel generalizing q with
  | zero => simp [nn_bus_recv] at h
  | succ f ih =>
    cases q with
    | nil =>
      rw [recv_nil] at h
      have h1 : (-EAGAIN : Int) = 0 := by injection h
      exact absurd h1 (by decide)
    | cons d q =>
      rw [recv_cons] at h
      by_cases hd : d.hdr.length = 8 ∧ nn_getll d.hdr ≠ n
      · rw [if_pos hd] at h
        injection h with _ h2
        injection h2 with _ h3
        exact ⟨⟨[], d.body⟩, d, h3.symm, rfl, List.mem_cons_self _ _, hd.1, hd.2, rfl⟩
      · rw [if_neg hd] at h
        obtain ⟨m, e, h1, h2, h3, h4⟩ := ih q h
        exact ⟨m, e, h1, h2, List.mem_cons_of_mem _ h3, h4⟩

/-- Witness of C1: node 5, a malformed message followed by one tagged with 6. -/
theorem recv_zero_surfaces_foreign_witness :
    nn_bus_recv queueEngine 3 ⟨⟨[⟨[1, 2, 3], [9]⟩, ⟨[0, 0, 0, 0, 0, 0, 0, 6], [8]⟩], []⟩, 5⟩ =
        Outcome.ret 0 (⟨⟨[], []⟩, 5⟩, some ⟨[], [8]⟩) ∧
      ∃ m d, some (⟨[], [8]⟩ : nn_msg) = some m ∧ m.hdr.length = 0 ∧
        d ∈ [(⟨[1, 2, 3], [9]⟩ : nn_msg), ⟨[0, 0, 0, 0, 0, 0, 0, 6], [8]⟩] ∧
        d.hdr.length = 8 ∧ nn_getll d.hdr ≠ 5 ∧ m = { d with hdr := [] } :=
  ⟨by decide,
   recv_zero_surfaces_foreign 5 [] 3
     [⟨[1, 2, 3], [9]⟩, ⟨[0, 0, 0, 0, 0, 0, 0, 6], [8]⟩] ⟨⟨[], []⟩, 5⟩ (some ⟨[], [8]⟩)
     (by decide)⟩

/-- C2 (loopback suppression): for every node id `n` (a `uint64_t`) and every
message `m` with an empty header, `nn_bus_send` on a socket with id `n` returns
0 and hands a tagged message `t` to the engine; with `t` at the front of the
receive queue of a socket with id `n`, `nn_bus_recv` ends exactly as it does on
the rest of the queue (and it does end), and with `t` alone in the queue it
returns `-EAGAIN` with no message. -/
theorem loopback_suppressed (n : Nat) (m : nn_msg) (q0 s0 q s : List nn_msg) (fuel : Nat)
    (hn : n < 2 ^ 64) (hm : m.hdr.length = 0) (hfuel : q.length + 1 < fuel) :
    ∃ t, nn_bus_send queueEngine ⟨⟨q0, s0⟩, n⟩ m = Outcome.ret 0 ⟨⟨q0, s0 ++ [t]⟩, n⟩ ∧
      nn_bus_recv queueEngine fuel ⟨⟨t :: q, s⟩, n⟩ =
        nn_bus_recv queueEngine fuel ⟨⟨q, s⟩, n⟩ ∧
      nn_bus_recv queueEngine fuel ⟨⟨q, s⟩, n⟩ ≠ Outcome.spin ∧
      nn_bus_recv queueEngine fuel ⟨⟨[t], s⟩, n⟩ =
        Outcome.ret (-EAGAIN) (⟨⟨[], s⟩, n⟩, none) := by
  refine ⟨⟨nn_putll n, m.body⟩, send_queue n m q0 s0 hm, ?_, ?_, ?_⟩
  · obtain ⟨f, rfl⟩ : ∃ f, fuel = f + 1 := ⟨fuel - 1, by omega⟩
    rw [recv_cons, if_neg (by simp [nn_getll_putll n hn])]
    exact recv_fuel_irrel n s q f (f + 1) (by omega) (by omega)
  · exact recv_ne_spin n s q fuel (by omega)
  · obtain ⟨f, rfl⟩ : ∃ f, fuel = f + 2 := ⟨fuel - 2, by omega⟩
    rw [recv_cons, if_neg (by simp [nn_getll_putll n hn]), recv_nil]

/-- Witness of C2: node 7 sends the body `[1, 2]`; the receive queue holds the
tagged message followed by a message of node 9. -/
theorem loopback_suppressed_witness :
    (7 : Nat) < 2 ^ 64 ∧ (⟨[], [1, 2]⟩ : nn_msg).hdr.length = 0 ∧
      [(⟨[0, 0, 0, 0, 0, 0, 0, 9], [3]⟩ : nn_msg)].length + 1 < 3 ∧
      ∃ t, nn_bus_send queueEngine ⟨⟨[], []⟩, 7⟩ ⟨[], [1, 2]⟩ =
          Outcome.ret 0 ⟨⟨[], [] ++ [t]⟩, 7⟩ ∧
        nn_bus_recv queueEngine 3 ⟨⟨t :: [⟨[0, 0, 0, 0, 0, 0, 0, 9], [3]⟩], []⟩, 7⟩ =
          nn_bus_recv queueEngine 3 ⟨⟨[⟨[0, 0, 0, 0, 0, 0, 0, 9], [3]⟩], []⟩, 7⟩ ∧
        nn_bus_recv queueEngine 3 ⟨⟨[⟨[0, 0, 0, 0, 0, 0, 0, 9], [3]⟩], []⟩, 7⟩ ≠ Outcome.spin ∧
        nn_bus_recv queueEngine 3 ⟨⟨[t], []⟩, 7⟩ =
          Outcome.ret (-EAGAIN) (⟨⟨[], []⟩, 7⟩, none) :=
  ⟨by decide, rfl, by decide,
   loopback_suppressed 7 ⟨[], [1, 2]⟩ [] [] [⟨[0, 0, 0, 0, 0, 0, 0, 9], [3]⟩] [] 3
     (by decide) rfl (by decide)⟩

/-- C3 (round trip): for node ids `a ≠ b` (`a` a `uint64_t`) and every message
`m` with an empty header, `nn_bus_send` on a socket with id `a` returns 0 and
hands a tagged message `t` to the engine; with `t` next in the queue of a
socket with id `b`, `nn_bus_recv` returns 0, takes `t` off the queue and hands
over a message with an empty header and the body of `m`. -/
theorem send_recv_round_trip (a b : Nat) (m : nn_msg) (q0 s0 q s : List nn_msg)
    (fuel : Nat) (ha : a < 2 ^ 64) (hab : a ≠ b) (hm : m.hdr.length = 0) :
    ∃ t, nn_bus_send queueEngine ⟨⟨q0, s0⟩, a⟩ m = Outcome.ret 0 ⟨⟨q0, s0 ++ [t]⟩, a⟩ ∧
      nn_bus_recv queueEngine (fuel + 1) ⟨⟨t :: q, s⟩, b⟩ =
        Outcome.ret 0 (⟨⟨q, s⟩, b⟩, some { hdr := [], body := m.body }) := by
  refine ⟨⟨nn_putll a, m.body⟩, send_queue a m q0 s0 hm, ?_⟩
  rw [recv_cons, if_pos]
  exact ⟨nn_putll_length a, by simpa [nn_getll_putll a ha] using hab⟩

/-- Witness of C3: node 0x1111111111111111 sends "ping", node
0x2222222222222222 receives it. -/
theorem send_recv_round_trip_witness :
    (0x1111111111111111 : Nat) < 2 ^ 64 ∧ (0x1111111111111111 : Nat) ≠ 0x2222222222222222 ∧
      (⟨[], [112, 105, 110, 103]⟩ : nn_msg).hdr.length = 0 ∧
      ∃ t, nn_bus_send queueEngine ⟨⟨[], []⟩, 0x1111111111111111⟩ ⟨[], [112, 105, 110, 103]⟩ =
          Outcome.ret 0 ⟨⟨[], [] ++ [t]⟩, 0x1111111111111111⟩ ∧
        nn_bus_recv queueEngine (0 + 1) ⟨⟨t :: [], []⟩, 0x2222222222222222⟩ =
          Outcome.ret 0 (⟨⟨[], []⟩, 0x2222222222222222⟩,
            some { hdr := [], body := (⟨[], [112, 105, 110, 103]⟩ : nn_msg).body }) :=
  ⟨by decide, by decide, rfl,
   send_recv_round_trip 0x1111111111111111 0x2222222222222222 ⟨[], [112, 105, 110, 103]⟩
     [] [] [] [] 0 (by decide) (by decide) rfl⟩

/-- C4 (malformed messages are skipped): on the queue engine, for every local
node id `n`, every message `m` whose header length is not 8 and every queue
`q`, `nn_bus_recv` on `m` followed by `q` ends, within the one call, exactly
as `nn_bus_recv` ends on `q` alone (same return code, same message handed
over, same queue left), and it does end: `m` is consumed and not handed
over. -/
theorem malformed_skipped (n : Nat) (m : nn_msg) (q s : List nn_msg) (fuel : Nat)
    (hm : m.hdr.length ≠ 8) (hfuel : q.length + 1 < fuel) :
    nn_bus_recv queueEngine fuel ⟨⟨m :: q, s⟩, n⟩ =
        nn_bus_recv queueEngine fuel ⟨⟨q, s⟩, n⟩ ∧
      nn_bus_recv queueEngine fuel ⟨⟨q, s⟩, n⟩ ≠ Outcome.spin := by
  refine ⟨?_, recv_ne_spin n s q fuel (by omega)⟩
  obtain ⟨f, rfl⟩ : ∃ f, fuel = f + 1 := ⟨fuel - 1, by omega⟩
  rw [recv_cons, if_neg (fun h => hm h.1)]
  exact recv_fuel_irrel n s q f (f + 1) (by omega) (by omega)

/-- Witness of C4: a message with a 3-byte header in front of a message of
node 6, on a socket with node id 5. -/
theorem malformed_skipped_witness :
    (⟨[1, 2, 3], [9]⟩ : nn_msg).hdr.length ≠ 8 ∧
      [(⟨[0, 0, 0, 0, 0, 0, 0, 6], [8]⟩ : nn_msg)].length + 1 < 3 ∧
      nn_bus_recv queueEngine 3 ⟨⟨⟨[1, 2, 3], [9]⟩ :: [⟨[0, 0, 0, 0, 0, 0, 0, 6], [8]⟩], []⟩, 5⟩ =
        nn_bus_recv queueEngine 3 ⟨⟨[⟨[0, 0, 0, 0, 0, 0, 0, 6], [8]⟩], []⟩, 5⟩ ∧
      nn_bus_recv queueEngine 3 ⟨⟨[⟨[0, 0, 0, 0, 0, 0, 0, 6], [8]⟩], []⟩, 5⟩ ≠ Outcome.spin :=
  ⟨by decide, by decide,
   malformed_skipped 5 ⟨[1, 2, 3], [9]⟩ [⟨[0, 0, 0, 0, 0, 0, 0, 6], [8]⟩] [] 3
     (by decide) (by decide)⟩

/-- C5 (wire format on send): for every engine, every node id `n` and every
message with an empty header, the one thing `nn_bus_send` does with the engine
is a call of `nn_xbus_send` on a message `t` whose header is the 8 bytes
`(n >> (56 - 8 * i)) & 0xff`, `i = 0..7` (most significant byte first), and
whose body is the original body; `nn_bus_send` returns 0 when that call
returns 0. -/
theorem send_wire_format {E : Type} (eng : Engine E) (bus : nn_bus E) (msg : nn_msg)
    (hm : msg.hdr.length = 0) :
    ∃ t : nn_msg, t.hdr.length = 8 ∧
      t.hdr = (List.range 8).map (fun i => (bus.nodeid >>> (56 - 8 * i)) &&& 0xff) ∧
      t.body = msg.body ∧
      nn_bus_send eng bus msg =
        if (eng.nn_xbus_send bus.xbus t).1 = 0 then
          Outcome.ret 0 ⟨(eng.nn_xbus_send bus.xbus t).2, bus.nodeid⟩
        else Outcome.abort ⟨(eng.nn_xbus_send bus.xbus t).2, bus.nodeid⟩ := by
  refine ⟨⟨nn_putll bus.nodeid, msg.body⟩, rfl, ?_, rfl, send_of_empty_hdr eng bus msg hm⟩
  have hmask : ∀ x : Nat, x &&& 0xff = x % 256 := fun x =>
    Nat.and_pow_two_sub_one_eq_mod x 8
  simp [nn_putll, List.range, List.range.loop, hmask]

/-- Witness of C5: node 0x0102030405060708 sends the body `[7]` on the queue
engine, which records the tagged message. -/
theorem send_wire_format_witness :
    (⟨[], [7]⟩ : nn_msg).hdr.length = 0 ∧
      nn_bus_send queueEngine ⟨⟨[], []⟩, 0x0102030405060708⟩ ⟨[], [7]⟩ =
        Outcome.ret 0 ⟨⟨[], [⟨[1, 2, 3, 4, 5, 6, 7, 8], [7]⟩]⟩, 0x0102030405060708⟩ ∧
      ∃ t : nn_msg, t.hdr.length = 8 ∧
        t.hdr = (List.range 8).map
          (fun i => ((0x0102030405060708 : Nat) >>> (56 - 8 * i)) &&& 0xff) ∧
        t.body = (⟨[], [7]⟩ : nn_msg).body ∧
        nn_bus_send queueEngine ⟨⟨[], []⟩, 0x0102030405060708⟩ ⟨[], [7]⟩ =
          if (queueEngine.nn_xbus_send ⟨[], []⟩ t).1 = 0 then
            Outcome.ret 0 ⟨(queueEngine.nn_xbus_send ⟨[], []⟩ t).2, 0x0102030405060708⟩
          else Outcome.abort ⟨(queueEngine.nn_xbus_send ⟨[], []⟩ t).2, 0x0102030405060708⟩ :=
  ⟨rfl, by decide,
   send_wire_format queueEngine ⟨⟨[], []⟩, 0x0102030405060708⟩ ⟨[], [7]⟩ rfl⟩

/-- Counterexample to C6: the engine's send reports `-EAGAIN` on a message
with an empty header, and `nn_bus_send` aborts in `errnum_assert` instead of
returning `-EAGAIN`. -/
theorem send_eagain_not_returned :
    (⟨[], [7]⟩ : nn_msg).hdr.length = 0 ∧
      (busyEngine.nn_xbus_send ⟨[], []⟩ ⟨nn_putll 5, [7]⟩).1 = -EAGAIN ∧
      nn_bus_send busyEngine ⟨⟨[], []⟩, 5⟩ ⟨[], [7]⟩ = Outcome.abort ⟨⟨[], []⟩, 5⟩ ∧
      ¬ ∃ st, nn_bus_send busyEngine ⟨⟨[], []⟩, 5⟩ ⟨[], [7]⟩ = Outcome.ret (-EAGAIN) st := by
  refine ⟨rfl, by decide, by decide, ?_⟩
  rintro ⟨st, h⟩
  have h1 : nn_bus_send busyEngine ⟨⟨[], []⟩, 5⟩ ⟨[], [7]⟩ = Outcome.abort ⟨⟨[], []⟩, 5⟩ := by
    decide
  rw [h1] at h
  exact Outcome.noConfusion h

/-- C6 as amended: for every engine and every message with an empty header,
if the engine's send reports `-EAGAIN` on the tagged message, `nn_bus_send`
does not return: `errnum_assert (rc == 0)` fails and the call aborts, with the
engine in the state its send left. -/
theorem send_eagain_aborts {E : Type} (eng : Engine E) (bus : nn_bus E) (msg : nn_msg)
    (hm : msg.hdr.length = 0)
    (hrc : (eng.nn_xbus_send bus.xbus ⟨nn_putll bus.nodeid, msg.body⟩).1 = -EAGAIN) :
    nn_bus_send eng bus msg =
      Outcome.abort
        ⟨(eng.nn_xbus_send bus.xbus ⟨nn_putll bus.nodeid, msg.body⟩).2, bus.nodeid⟩ := by
  have hne : ¬ (-EAGAIN = (0 : Int)) := by decide
  rw [send_of_empty_hdr eng bus msg hm, hrc, if_neg hne]

/-- Witness of C6 as amended: the busy engine, node 5, body `[7]`. -/
theorem send_eagain_aborts_witness :
    (⟨[], [7]⟩ : nn_msg).hdr.length = 0 ∧
      (busyEngine.nn_xbus_send ⟨[], []⟩ ⟨nn_putll 5, [7]⟩).1 = -EAGAIN ∧
      nn_bus_send busyEngine ⟨⟨[], []⟩, 5⟩ ⟨[], [7]⟩ =
        Outcome.abort
          ⟨(busyEngine.nn_xbus_send ⟨[], []⟩ ⟨nn_putll 5, [7]⟩).2, 5⟩ :=
  ⟨rfl, by decide,
   send_eagain_aborts busyEngine ⟨⟨[], []⟩, 5⟩ ⟨[], [7]⟩ rfl (by decide)⟩

/-- C7: on the queue engine with its pulls counted, for every queue `q` and
more fuel than queued messages, `nn_bus_recv` returns `-EAGAIN` (leaving the
state `st`) if and only if no message of `q` has an 8-byte header that decodes
to an id other than the local one; and then the queue is empty, no message is
handed over and the engine has been pulled `q.length + 1` times: once per
queued message and once for the pull that reported `-EAGAIN`, none after
it. -/
theorem recv_eagain_iff (n : Nat) (s : List nn_msg) (q : List nn_msg) (k fuel : Nat)
    (st : nn_bus (nn_xbus × Nat) × Option nn_msg) (hfuel : q.length < fuel) :
    nn_bus_recv (counted queueEngine) fuel ⟨(⟨q, s⟩, k), n⟩ = Outcome.ret (-EAGAIN) st ↔
      (∀ m ∈ q, ¬ (m.hdr.length = 8 ∧ nn_getll m.hdr ≠ n)) ∧
        st = (⟨(⟨[], s⟩, k + q.length + 1), n⟩, none) := by
  induction q generalizing k fuel with
  | nil =>
    obtain ⟨f, rfl⟩ : ∃ f, fuel = f + 1 := ⟨fuel - 1, by simp at hfuel; omega⟩
    rw [recv_counted_nil]
    constructor
    · intro h
      injection h with _ h2
      exact ⟨by simp, h2.symm⟩
    · rintro ⟨_, rfl⟩
      rfl
  | cons m q ih =>
    obtain ⟨f, rfl⟩ : ∃ f, fuel = f + 1 := ⟨fuel - 1, by simp at hfuel; omega⟩
    have hf : q.length < f := by simpa using hfuel
    rw [recv_counted_cons]
    by_cases hd : m.hdr.length = 8 ∧ nn_getll m.hdr ≠ n
    · rw [if_pos hd]
      constructor
      · intro h
        have h1 : (0 : Int) = -EAGAIN := by injection h
        exact absurd h1 (by decide)
      · rintro ⟨h, _⟩
        exact absurd hd (h m (List.mem_cons_self _ _))
    · rw [if_neg hd, ih (k + 1) f hf]
      have hk : k + 1 + q.length + 1 = k + (m :: q).length + 1 := by
        simp only [List.length_cons]; omega
      rw [hk]
      constructor
      · rintro ⟨h, hst⟩
        refine ⟨?_, hst⟩
        intro x hx
        rcases List.mem_cons.mp hx with rfl | hx
        · exact hd
        · exact h x hx
      · rintro ⟨h, hst⟩
        exact ⟨fun x hx => h x (List.mem_cons_of_mem _ hx), hst⟩

/-- Witness of C7: node 5, a malformed message and a message of node 5 itself. -/
theorem recv_eagain_iff_witness :
    [(⟨[1, 2, 3], [9]⟩ : nn_msg), ⟨[0, 0, 0, 0, 0, 0, 0, 5], [8]⟩].length < 3 ∧
      nn_bus_recv (counted queueEngine) 3
          ⟨(⟨[⟨[1, 2, 3], [9]⟩, ⟨[0, 0, 0, 0, 0, 0, 0, 5], [8]⟩], []⟩, 0), 5⟩ =
        Outcome.ret (-EAGAIN) (⟨(⟨[], []⟩, 3), 5⟩, none) ∧
      (nn_bus_recv (counted queueEngine) 3
          ⟨(⟨[⟨[1, 2, 3], [9]⟩, ⟨[0, 0, 0, 0, 0, 0, 0, 5], [8]⟩], []⟩, 0), 5⟩ =
        Outcome.ret (-EAGAIN) (⟨(⟨[], []⟩, 3), 5⟩, none) ↔
        (∀ m ∈ [(⟨[1, 2, 3], [9]⟩ : nn_msg), ⟨[0, 0, 0, 0, 0, 0, 0, 5], [8]⟩],
            ¬ (m.hdr.length = 8 ∧ nn_getll m.hdr ≠ 5)) ∧
          ((⟨(⟨[], []⟩, 3), 5⟩, none) : nn_bus (nn_xbus × Nat) × Option nn_msg) =
            (⟨(⟨[], []⟩,
              0 + [(⟨[1, 2, 3], [9]⟩ : nn_msg), ⟨[0, 0, 0, 0, 0, 0, 0, 5], [8]⟩].length + 1), 5⟩,
              none)) :=
  ⟨by decide, by decide,
   recv_eagain_iff 5 [] [⟨[1, 2, 3], [9]⟩, ⟨[0, 0, 0, 0, 0, 0, 0, 5], [8]⟩] 0 3
     (⟨(⟨[], []⟩, 3), 5⟩, none) (by decide)⟩

/-- Counterexample to C8: on a message with the 1-byte header `[1]`,
`nn_bus_send` aborts in `nn_assert`; it returns no code at all, so no
parameter error reaches the caller. -/
theorem send_nonempty_hdr_not_returned :
    (⟨[1], [7]⟩ : nn_msg).hdr ≠ [] ∧
      nn_bus_send queueEngine ⟨⟨[], []⟩, 5⟩ ⟨[1], [7]⟩ = Outcome.abort ⟨⟨[], []⟩, 5⟩ ∧
      ¬ ∃ rc st, nn_bus_send queueEngine ⟨⟨[], []⟩, 5⟩ ⟨[1], [7]⟩ = Outcome.ret rc st := by
  refine ⟨by decide, by decide, ?_⟩
  rintro ⟨rc, st, h⟩
  have h1 : nn_bus_send queueEngine ⟨⟨[], []⟩, 5⟩ ⟨[1], [7]⟩ = Outcome.abort ⟨⟨[], []⟩, 5⟩ := by
    decide
  rw [h1] at h
  exact Outcome.noConfusion h

/-- C8 as amended: for every engine and every message whose header is
non-empty, `nn_bus_send` fails its `nn_assert` and aborts; the socket,
engine state included, is as it was before the call, so the message has not
been handed to the engine. -/
theorem send_nonempty_hdr_aborts {E : Type} (eng : Engine E) (bus : nn_bus E)
    (msg : nn_msg) (hm : msg.hdr ≠ []) :
    nn_bus_send eng bus msg = Outcome.abort bus := by
  have h : ¬ (msg.hdr.length = 0) := fun h0 => hm (List.length_eq_zero.mp h0)
  simp [nn_bus_send, h]

/-- Witness of C8 as amended: the queue engine, whose log of sent messages
stays empty. -/
theorem send_nonempty_hdr_aborts_witness :
    (⟨[1], [7]⟩ : nn_msg).hdr ≠ [] ∧
      nn_bus_send queueEngine ⟨⟨[], []⟩, 5⟩ ⟨[1], [7]⟩ = Outcome.abort ⟨⟨[], []⟩, 5⟩ :=
  ⟨by decide, send_nonempty_hdr_aborts queueEngine ⟨⟨[], []⟩, 5⟩ ⟨[1], [7]⟩ (by decide)⟩

/-- C9: for every message, buffer content `hdr` and length `hdrlen`,
`nn_bus_sethdr` returns `-EINVAL` if and only if `hdrlen ≠ 0`, returns 0 if and
only if `hdrlen = 0`, and leaves the message (header and body) as it was. -/
theorem sethdr_spec (msg : nn_msg) (hdr : List Nat) (hdrlen : Nat) :
    ((nn_bus_sethdr msg hdr hdrlen).1 = -EINVAL ↔ hdrlen ≠ 0) ∧
      ((nn_bus_sethdr msg hdr hdrlen).1 = 0 ↔ hdrlen = 0) ∧
      (nn_bus_sethdr msg hdr hdrlen).2 = msg := by
  have h1 : ¬ ((0 : Int) = -EINVAL) := by decide
  have h2 : ¬ (-EINVAL = (0 : Int)) := by decide
  by_cases h : hdrlen = 0
  · simp [nn_bus_sethdr, h, h1]
  · simp [nn_bus_sethdr, h, h2]

/-- C10: for every message, whatever its header, and every state of the
caller's buffer and of `*hdrlen`, `nn_bus_gethdr` returns 0, stores 0 in
`*hdrlen`, and leaves the message and the buffer as they were; and after an
`nn_bus_sethdr` with length 0, which returns 0, `nn_bus_gethdr` on the
resulting message reports length 0. -/
theorem gethdr_spec (msg : nn_msg) (hdr buf : List Nat) (hdrlen : Nat) :
    (nn_bus_gethdr msg buf hdrlen).1 = 0 ∧
      (nn_bus_gethdr msg buf hdrlen).2.2.2 = 0 ∧
      (nn_bus_gethdr msg buf hdrlen).2.1 = msg ∧
      (nn_bus_gethdr msg buf hdrlen).2.2.1 = buf ∧
      (nn_bus_sethdr msg hdr 0).1 = 0 ∧
      (nn_bus_gethdr (nn_bus_sethdr msg hdr 0).2 buf hdrlen).1 = 0 ∧
      (nn_bus_gethdr (nn_bus_sethdr msg hdr 0).2 buf hdrlen).2.2.2 = 0 := by
  simp [nn_bus_gethdr, nn_bus_sethdr]

/-! ## Facts about the loop for every engine -/

/-- Whatever the engine, a return code of `nn_bus_recv` is 0 or `-EAGAIN`. -/
theorem recv_ret_code {E : Type} (eng : Engine E) :
    ∀ (fuel : Nat) (bus : nn_bus E) (rc : Int) (st : nn_bus E × Option nn_msg),
      nn_bus_recv eng fuel bus = Outcome.ret rc st → rc = 0 ∨ rc = -EAGAIN
  | 0, _, _, _, h => by simp [nn_bus_recv] at h
  | fuel + 1, bus, rc, st, h => by
    unfold nn_bus_recv at h
    simp only at h
    split at h
    · injection h with h1 _
      exact Or.inr h1.symm
    · split at h
      · exact Outcome.noConfusion h
      · split at h
        · exact recv_ret_code eng fuel _ rc st h
        · split at h
          · exact recv_ret_code eng fuel _ rc st h
          · injection h with h1 _
            exact Or.inl h1.symm

/-- One iteration on a pull that fails with a code other than `-EAGAIN`:
`errnum_assert` ends the call. -/
theorem recv_step_abort {E : Type} (eng : Engine E) (st : E) (n fuel : Nat)
    (h0 : (eng.nn_xbus_recv st).1 ≠ 0) (h1 : (eng.nn_xbus_recv st).1 ≠ -EAGAIN) :
    nn_bus_recv eng (fuel + 1) ⟨st, n⟩ =
      Outcome.abort (⟨(eng.nn_xbus_recv st).2.2, n⟩, none) := by
  simp [nn_bus_recv, h0, h1]

/-- One iteration on a pull that delivers a message the loop rejects: the
loop goes on from the engine state the pull left. -/
theorem recv_step_skip {E : Type} (eng : Engine E) (st : E) (n fuel : Nat)
    (h0 : (eng.nn_xbus_recv st).1 = 0)
    (hrej : (eng.nn_xbus_recv st).2.1.hdr.length ≠ 8 ∨
      nn_getll (eng.nn_xbus_recv st).2.1.hdr = n) :
    nn_bus_recv eng (fuel + 1) ⟨st, n⟩ =
      nn_bus_recv eng fuel ⟨(eng.nn_xbus_recv st).2.2, n⟩ := by
  have hne : ¬ ((0 : Int) = -EAGAIN) := by decide
  rcases hrej with h8 | hn
  · simp [nn_bus_recv, h0, hne, h8]
  · by_cases h8 : (eng.nn_xbus_recv st).2.1.hdr.length = 8
    · simp [nn_bus_recv, h0, hne, h8, hn]
    · simp [nn_bus_recv, h0, hne, h8]

/-- The loop aborts at the first pull that fails with a code other than
`-EAGAIN`, however many rejected messages were pulled before it. -/
theorem recv_abort_at {E : Type} (eng : Engine E) (n : Nat) :
    ∀ (i : Nat) (st : E) (fuel : Nat), i < fuel →
      (∀ j, j < i → (eng.nn_xbus_recv (afterPulls eng j st)).1 = 0 ∧
        ((eng.nn_xbus_recv (afterPulls eng j st)).2.1.hdr.length ≠ 8 ∨
          nn_getll (eng.nn_xbus_recv (afterPulls eng j st)).2.1.hdr = n)) →
      (eng.nn_xbus_recv (afterPulls eng i st)).1 ≠ 0 →
      (eng.nn_xbus_recv (afterPulls eng i st)).1 ≠ -EAGAIN →
      nn_bus_recv eng fuel ⟨st, n⟩ =
        Outcome.abort (⟨afterPulls eng (i + 1) st, n⟩, none)
  | 0, st, fuel + 1, _, _, h0, h1 => recv_step_abort eng st n fuel h0 h1
  | i + 1, st, fuel + 1, hf, hpre, h0, h1 => by
    have hfirst := hpre 0 (Nat.succ_pos i)
    rw [recv_step_skip eng st n fuel hfirst.1 hfirst.2]
    exact recv_abort_at eng n i (eng.nn_xbus_recv st).2.2 fuel (by omega)
      (fun j hj => hpre (j + 1) (by omega)) h0 h1
  | _, _, 0, hf, _, _, _ => absurd hf (Nat.not_lt_zero _)

/-- On the queue engine, with more fuel than queued messages, the call
returns: it neither aborts nor is it still running. -/
theorem recv_queue_returns (n : Nat) (s : List nn_msg) :
    ∀ (q : List nn_msg) (f : Nat), q.length < f →
      ∃ rc st, nn_bus_recv queueEngine f ⟨⟨q, s⟩, n⟩ = Outcome.ret rc st
  | [], f + 1, _ => ⟨_, _, recv_nil s n f⟩
  | m :: q, f + 1, hf => by
    have hf1 : q.length < f := by simpa using hf
    rw [recv_cons]
    split
    · exact ⟨_, _, rfl⟩
    · exact recv_queue_returns n s q f hf1
  | _, 0, hf => absurd hf (Nat.not_lt_zero _)

/-- However `nn_bus_send` ends, the socket it leaves has the node id it
started with. -/
theorem send_nodeid {E : Type} (eng : Engine E) (bus : nn_bus E) (msg : nn_msg)
    (st : nn_bus E)
    (h : (∃ rc, nn_bus_send eng bus msg = Outcome.ret rc st) ∨
      nn_bus_send eng bus msg = Outcome.abort st) :
    st.nodeid = bus.nodeid := by
  unfold nn_bus_send at h
  simp only at h
  split at h
  · split at h
    · rcases h with ⟨rc, h⟩ | h
      · injection h with _ h2
        rw [← h2]
      · exact Outcome.noConfusion h
    · rcases h with ⟨rc, h⟩ | h
      · exact Outcome.noConfusion h
      · injection h with h2
        rw [← h2]
  · rcases h with ⟨rc, h⟩ | h
    · exact Outcome.noConfusion h
    · injection h with h2
      rw [← h2]

/-- However `nn_bus_recv` ends, the socket it leaves has the node id it
started with. -/
theorem recv_nodeid {E : Type} (eng : Engine E) :
    ∀ (fuel : Nat) (bus : nn_bus E) (st : nn_bus E) (out : Option nn_msg),
      (∃ rc, nn_bus_recv eng fuel bus = Outcome.ret rc (st, out)) ∨
        nn_bus_recv eng fuel bus = Outcome.abort (st, out) →
      st.nodeid = bus.nodeid
  | 0, _, _, _, h => by
    rcases h with ⟨rc, h⟩ | h <;> simp [nn_bus_recv] at h
  | fuel + 1, bus, st, out, h => by
    unfold nn_bus_recv at h
    simp only at h
    split at h
    · rcases h with ⟨rc, h⟩ | h
      · injection h with _ h2
        injection h2 with h3 _
        rw [← h3]
      · exact Outcome.noConfusion h
    · split at h
      · rcases h with ⟨rc, h⟩ | h
        · exact Outcome.noConfusion h
        · injection h with h2
          injection h2 with h3 _
          rw [← h3]
      · split at h
        · exact recv_nodeid eng fuel ⟨(eng.nn_xbus_recv bus.xbus).2.2, bus.nodeid⟩ st out h
        · split at h
          · exact recv_nodeid eng fuel ⟨(eng.nn_xbus_recv bus.xbus).2.2, bus.nodeid⟩ st out h
          · rcases h with ⟨rc, h⟩ | h
            · injection h with _ h2
              injection h2 with h3 _
              rw [← h3]
            · exact Outcome.noConfusion h

/-- A call that returns leaves the node id as it was. -/
theorem run_nodeid {E : Type} (eng : Engine E) (bus bus1 : nn_bus E) (c : Call)
    (h : c.run eng bus = some bus1) : bus1.nodeid = bus.nodeid := by
  cases c with
  | send msg =>
    simp only [Call.run] at h
    split at h
    · next rc b hs =>
      injection h with h1
      rw [← h1]
      exact send_nodeid eng bus msg b (Or.inl ⟨rc, hs⟩)
    · exact Option.noConfusion h
  | recv fuel =>
    simp only [Call.run] at h
    split at h
    · next rc b out hs =>
      injection h with h1
      rw [← h1]
      exact recv_nodeid eng fuel bus b out (Or.inl ⟨rc, hs⟩)
    · exact Option.noConfusion h
  | sethdr msg hdr hdrlen =>
    simp only [Call.run] at h
    injection h with h1
    rw [← h1]
  | gethdr msg hdr hdrlen =>
    simp only [Call.run] at h
    injection h with h1
    rw [← h1]

/-- A sequence of calls that all return leaves the node id as it was. -/
theorem runCalls_nodeid {E : Type} (eng : Engine E) :
    ∀ (cs : List Call) (bus bus1 : nn_bus E),
      runCalls eng bus cs = some bus1 → bus1.nodeid = bus.nodeid
  | [], bus, bus1, h => by
    simp only [runCalls] at h
    injection h with h1
    rw [← h1]
  | c :: cs, bus, bus1, h => by
    simp only [runCalls] at h
    split at h
    · next b hc =>
      rw [runCalls_nodeid eng cs b bus1 h, run_nodeid eng bus b c hc]
    · exact Option.noConfusion h

/-- On the queue engine a rejected message at the front of the queue does not
change how the call ends. -/
theorem recv_rejected_front (n : Nat) (x : nn_msg) (q s : List nn_msg) (fuel : Nat)
    (hx : ¬ (x.hdr.length = 8 ∧ nn_getll x.hdr ≠ n)) (hfuel : q.length + 1 < fuel) :
    nn_bus_recv queueEngine fuel ⟨⟨x :: q, s⟩, n⟩ =
      nn_bus_recv queueEngine fuel ⟨⟨q, s⟩, n⟩ := by
  obtain ⟨f, rfl⟩ : ∃ f, fuel = f + 1 := ⟨fuel - 1, by omega⟩
  rw [recv_cons, if_neg hx]
  exact recv_fuel_irrel n s q f (f + 1) (by omega) (by omega)

/-! ## The claims on the loop as a whole -/

/-- C11 (filtering projection): on the queue engine, for every local node id
`n` and every queue `q`, calling `nn_bus_recv` repeatedly until it returns
`-EAGAIN` (with more fuel per call, and more calls allowed, than there are
queued messages) ends, and the messages handed over are exactly, in order,
those of the spec's filtering projection of `q`: the messages of `q` with an
8-byte header that decodes to an id other than `n`, each with its body and an
empty header; the queue is then empty, so every other message has been
consumed without being handed over. -/
theorem recv_until_eagain_projection (n : Nat) (s q : List nn_msg) (fuel calls : Nat)
    (hfuel : q.length < fuel) (hcalls : q.length < calls) :
    recv_until_eagain queueEngine fuel calls ⟨⟨q, s⟩, n⟩ =
      some (spec_filtering_projection n q, ⟨⟨[], s⟩, n⟩) := by
  have h0 : ¬ ((0 : Int) = -EAGAIN) := by decide
  induction q generalizing calls with
  | nil =>
    obtain ⟨f, rfl⟩ : ∃ f, fuel = f + 1 := ⟨fuel - 1, by simp at hfuel; omega⟩
    obtain ⟨c, rfl⟩ : ∃ c, calls = c + 1 := ⟨calls - 1, by simp at hcalls; omega⟩
    simp [recv_until_eagain, recv_nil, spec_filtering_projection]
  | cons x q ih =>
    obtain ⟨c, rfl⟩ : ∃ c, calls = c + 1 := ⟨calls - 1, by simp at hcalls; omega⟩
    have hf : q.length + 1 < fuel := by simpa using hfuel
    have hc : q.length < c := by simpa using hcalls
    by_cases hx : x.hdr.length = 8 ∧ nn_getll x.hdr ≠ n
    · have h1 : nn_bus_recv queueEngine fuel ⟨⟨x :: q, s⟩, n⟩ =
          Outcome.ret 0 (⟨⟨q, s⟩, n⟩, some ⟨[], x.body⟩) := by
        obtain ⟨f, rfl⟩ : ∃ f, fuel = f + 1 := ⟨fuel - 1, by omega⟩
        rw [recv_cons, if_pos hx]
      have h2 := ih c (by omega) hc
      simp [recv_until_eagain, h1, h2, h0, spec_filtering_projection, hx]
    · have h1 := recv_rejected_front n x q s fuel hx hf
      have h2 := ih (c + 1) (by omega) (by omega)
      have h3 : recv_until_eagain queueEngine fuel (c + 1) ⟨⟨x :: q, s⟩, n⟩ =
          recv_until_eagain queueEngine fuel (c + 1) ⟨⟨q, s⟩, n⟩ := by
        simp only [recv_until_eagain, h1]
      rw [h3, h2]
      simp [spec_filtering_projection, hx]

/-- Witness of C11: node 5; the queue holds a malformed message, a message of
node 6, a message of node 5 itself and a message of node 7. -/
theorem recv_until_eagain_projection_witness :
    [(⟨[1, 2, 3], [9]⟩ : nn_msg), ⟨[0, 0, 0, 0, 0, 0, 0, 6], [8]⟩,
        ⟨[0, 0, 0, 0, 0, 0, 0, 5], [7]⟩, ⟨[0, 0, 0, 0, 0, 0, 0, 7], [6]⟩].length < 5 ∧
      spec_filtering_projection 5
        [⟨[1, 2, 3], [9]⟩, ⟨[0, 0, 0, 0, 0, 0, 0, 6], [8]⟩,
          ⟨[0, 0, 0, 0, 0, 0, 0, 5], [7]⟩, ⟨[0, 0, 0, 0, 0, 0, 0, 7], [6]⟩] =
        [⟨[], [8]⟩, ⟨[], [6]⟩] ∧
      recv_until_eagain queueEngine 5 5
        ⟨⟨[⟨[1, 2, 3], [9]⟩, ⟨[0, 0, 0, 0, 0, 0, 0, 6], [8]⟩,
          ⟨[0, 0, 0, 0, 0, 0, 0, 5], [7]⟩, ⟨[0, 0, 0, 0, 0, 0, 0, 7], [6]⟩], []⟩, 5⟩ =
        some (spec_filtering_projection 5
          [⟨[1, 2, 3], [9]⟩, ⟨[0, 0, 0, 0, 0, 0, 0, 6], [8]⟩,
            ⟨[0, 0, 0, 0, 0, 0, 0, 5], [7]⟩, ⟨[0, 0, 0, 0, 0, 0, 0, 7], [6]⟩],
          ⟨⟨[], []⟩, 5⟩) :=
  ⟨by decide, by decide,
   recv_until_eagain_projection 5 []
     [⟨[1, 2, 3], [9]⟩, ⟨[0, 0, 0, 0, 0, 0, 0, 6], [8]⟩,
       ⟨[0, 0, 0, 0, 0, 0, 0, 5], [7]⟩, ⟨[0, 0, 0, 0, 0, 0, 0, 7], [6]⟩] 5 5
     (by decide) (by decide)⟩

/-- C12 (no lookahead, no re-queueing): on the queue engine with its pulls
counted, for every queue `q` that contains a message with an 8-byte header
decoding to an id other than the local id `n`, `q` splits as `pre ++ d :: post`
with `d` the first such message, and `nn_bus_recv` returns 0, hands over `d`
with its body and an empty header, and leaves exactly `post` in the queue,
after `pre.length + 1` pulls: the rejected messages `pre` are gone, nothing
behind `d` has been pulled. -/
theorem recv_first_acceptable (n : Nat) (s q : List nn_msg) (k fuel : Nat)
    (hq : ∃ m ∈ q, m.hdr.length = 8 ∧ nn_getll m.hdr ≠ n) (hfuel : q.length ≤ fuel) :
    ∃ pre d post, q = pre ++ d :: post ∧
      (∀ m ∈ pre, ¬ (m.hdr.length = 8 ∧ nn_getll m.hdr ≠ n)) ∧
      (d.hdr.length = 8 ∧ nn_getll d.hdr ≠ n) ∧
      nn_bus_recv (counted queueEngine) fuel ⟨(⟨q, s⟩, k), n⟩ =
        Outcome.ret 0 (⟨(⟨post, s⟩, k + pre.length + 1), n⟩, some ⟨[], d.body⟩) := by
  induction q generalizing k fuel with
  | nil =>
    obtain ⟨m, hm, _⟩ := hq
    exact absurd hm (List.not_mem_nil m)
  | cons x q ih =>
    obtain ⟨f, rfl⟩ : ∃ f, fuel = f + 1 := ⟨fuel - 1, by simp at hfuel; omega⟩
    have hf : q.length ≤ f := by simpa using hfuel
    by_cases hx : x.hdr.length = 8 ∧ nn_getll x.hdr ≠ n
    · refine ⟨[], x, q, rfl, by simp, hx, ?_⟩
      rw [recv_counted_cons, if_pos hx]
      rfl
    · have hq1 : ∃ m ∈ q, m.hdr.length = 8 ∧ nn_getll m.hdr ≠ n := by
        obtain ⟨m, hm, ha⟩ := hq
        rcases List.mem_cons.mp hm with rfl | hm
        · exact absurd ha hx
        · exact ⟨m, hm, ha⟩
      obtain ⟨pre, d, post, he, hp, hd, hr⟩ := ih (k + 1) f hq1 hf
      refine ⟨x :: pre, d, post, by rw [he, List.cons_append], ?_, hd, ?_⟩
      · intro m hm
        rcases List.mem_cons.mp hm with rfl | hm
        · exact hx
        · exact hp m hm
      · have hk : k + 1 + pre.length + 1 = k + (x :: pre).length + 1 := by
          simp only [List.length_cons]; omega
        rw [recv_counted_cons, if_neg hx, hr, hk]

/-- Witness of C12: node 5, pull counter at 0; a malformed message and a
message of node 5 itself precede a message of node 6, a message of node 7
follows it. -/
theorem recv_first_acceptable_witness :
    (∃ m ∈ [(⟨[1, 2, 3], [9]⟩ : nn_msg), ⟨[0, 0, 0, 0, 0, 0, 0, 5], [7]⟩,
        ⟨[0, 0, 0, 0, 0, 0, 0, 6], [8]⟩, ⟨[0, 0, 0, 0, 0, 0, 0, 7], [6]⟩],
        m.hdr.length = 8 ∧ nn_getll m.hdr ≠ 5) ∧
      nn_bus_recv (counted queueEngine) 4
          ⟨(⟨[⟨[1, 2, 3], [9]⟩, ⟨[0, 0, 0, 0, 0, 0, 0, 5], [7]⟩,
            ⟨[0, 0, 0, 0, 0, 0, 0, 6], [8]⟩, ⟨[0, 0, 0, 0, 0, 0, 0, 7], [6]⟩], []⟩, 0), 5⟩ =
        Outcome.ret 0 (⟨(⟨[⟨[0, 0, 0, 0, 0, 0, 0, 7], [6]⟩], []⟩, 3), 5⟩, some ⟨[], [8]⟩) ∧
      ∃ pre d post,
        [(⟨[1, 2, 3], [9]⟩ : nn_msg), ⟨[0, 0, 0, 0, 0, 0, 0, 5], [7]⟩,
          ⟨[0, 0, 0, 0, 0, 0, 0, 6], [8]⟩, ⟨[0, 0, 0, 0, 0, 0, 0, 7], [6]⟩] =
            pre ++ d :: post ∧
        (∀ m ∈ pre, ¬ (m.hdr.length = 8 ∧ nn_getll m.hdr ≠ 5)) ∧
        (d.hdr.length = 8 ∧ nn_getll d.hdr ≠ 5) ∧
        nn_bus_recv (counted queueEngine) 4
            ⟨(⟨[⟨[1, 2, 3], [9]⟩, ⟨[0, 0, 0, 0, 0, 0, 0, 5], [7]⟩,
              ⟨[0, 0, 0, 0, 0, 0, 0, 6], [8]⟩, ⟨[0, 0, 0, 0, 0, 0, 0, 7], [6]⟩], []⟩, 0), 5⟩ =
          Outcome.ret 0 (⟨(⟨post, []⟩, 0 + pre.length + 1), 5⟩, some ⟨[], d.body⟩) :=
  ⟨by decide, by decide,
   recv_first_acceptable 5 []
     [⟨[1, 2, 3], [9]⟩, ⟨[0, 0, 0, 0, 0, 0, 0, 5], [7]⟩,
       ⟨[0, 0, 0, 0, 0, 0, 0, 6], [8]⟩, ⟨[0, 0, 0, 0, 0, 0, 0, 7], [6]⟩] 0 4
     (by decide) (by decide)⟩

/-- C13 (termination): on the queue engine with its pulls counted, for every
queue `q` and every fuel above `q.length` (so `q.length + 1` loop iterations
are enough), `nn_bus_recv` returns, whatever the queued messages are, after
`pulls` pulls with `pulls ≤ q.length + 1`; either it returns 0 after
`pulls ≤ q.length` pulls that took the first `pulls` messages off the queue,
one per pull, or it returns `-EAGAIN` after `q.length` pulls that emptied the
queue and one more pull that found it empty. -/
theorem recv_terminates (n : Nat) (s q : List nn_msg) (k fuel : Nat)
    (hfuel : q.length < fuel) :
    ∃ rc rest out pulls,
      nn_bus_recv (counted queueEngine) fuel ⟨(⟨q, s⟩, k), n⟩ =
        Outcome.ret rc (⟨(⟨rest, s⟩, k + pulls), n⟩, out) ∧
      pulls ≤ q.length + 1 ∧
      ((rc = 0 ∧ 0 < pulls ∧ pulls ≤ q.length ∧ rest = q.drop pulls) ∨
        (rc = -EAGAIN ∧ pulls = q.length + 1 ∧ rest = [])) := by
  induction q generalizing k fuel with
  | nil =>
    obtain ⟨f, rfl⟩ : ∃ f, fuel = f + 1 := ⟨fuel - 1, by simp at hfuel; omega⟩
    exact ⟨-EAGAIN, [], none, 1, recv_counted_nil s k n f, by simp,
      Or.inr ⟨rfl, rfl, rfl⟩⟩
  | cons x q ih =>
    obtain ⟨f, rfl⟩ : ∃ f, fuel = f + 1 := ⟨fuel - 1, by simp at hfuel; omega⟩
    have hf : q.length < f := by simpa using hfuel
    by_cases hx : x.hdr.length = 8 ∧ nn_getll x.hdr ≠ n
    · refine ⟨0, q, some ⟨[], x.body⟩, 1, ?_, by simp, Or.inl ⟨rfl, by decide, by simp, rfl⟩⟩
      rw [recv_counted_cons, if_pos hx]
    · obtain ⟨rc, rest, out, p, hr, hp, hcase⟩ := ih (k + 1) f hf
      have hk : k + 1 + p = k + (p + 1) := by omega
      refine ⟨rc, rest, out, p + 1, ?_, by simp only [List.length_cons]; omega, ?_⟩
      · rw [recv_counted_cons, if_neg hx, hr, hk]
      · rcases hcase with ⟨h1, h2, h3, h4⟩ | ⟨h1, h2, h3⟩
        · exact Or.inl ⟨h1, Nat.succ_pos p, by simp only [List.length_cons]; omega,
            by rw [h4, List.drop_succ_cons]⟩
        · exact Or.inr ⟨h1, by simp only [List.length_cons]; omega, h3⟩

/-- Witness of C13: node 5, pull counter at 0, a queue of three messages that
are all malformed or self-originated: `-EAGAIN` after 4 pulls. -/
theorem recv_terminates_witness :
    [(⟨[1, 2, 3], [9]⟩ : nn_msg), ⟨[0, 0, 0, 0, 0, 0, 0, 5], [7]⟩, ⟨[], [6]⟩].length < 4 ∧
      nn_bus_recv (counted queueEngine) 4
          ⟨(⟨[⟨[1, 2, 3], [9]⟩, ⟨[0, 0, 0, 0, 0, 0, 0, 5], [7]⟩, ⟨[], [6]⟩], []⟩, 0), 5⟩ =
        Outcome.ret (-EAGAIN) (⟨(⟨[], []⟩, 4), 5⟩, none) ∧
      ∃ rc rest out pulls,
        nn_bus_recv (counted queueEngine) 4
            ⟨(⟨[⟨[1, 2, 3], [9]⟩, ⟨[0, 0, 0, 0, 0, 0, 0, 5], [7]⟩, ⟨[], [6]⟩], []⟩, 0), 5⟩ =
          Outcome.ret rc (⟨(⟨rest, []⟩, 0 + pulls), 5⟩, out) ∧
        pulls ≤
          [(⟨[1, 2, 3], [9]⟩ : nn_msg), ⟨[0, 0, 0, 0, 0, 0, 0, 5], [7]⟩, ⟨[], [6]⟩].length + 1 ∧
        ((rc = 0 ∧ 0 < pulls ∧
            pulls ≤
              [(⟨[1, 2, 3], [9]⟩ : nn_msg), ⟨[0, 0, 0, 0, 0, 0, 0, 5], [7]⟩, ⟨[], [6]⟩].length ∧
            rest =
              [(⟨[1, 2, 3], [9]⟩ : nn_msg), ⟨[0, 0, 0, 0, 0, 0, 0, 5], [7]⟩, ⟨[], [6]⟩].drop
                pulls) ∨
          (rc = -EAGAIN ∧
            pulls =
              [(⟨[1, 2, 3], [9]⟩ : nn_msg), ⟨[0, 0, 0, 0, 0, 0, 0, 5], [7]⟩, ⟨[], [6]⟩].length
                + 1 ∧
            rest = [])) :=
  ⟨by decide, by decide,
   recv_terminates 5 [] [⟨[1, 2, 3], [9]⟩, ⟨[0, 0, 0, 0, 0, 0, 0, 5], [7]⟩, ⟨[], [6]⟩] 0 4
     (by decide)⟩

/-- C14: for every engine, every socket and every fuel, (1) whenever
`nn_bus_recv` returns, the code it returns is 0 or `-EAGAIN`; (2) if the pull
number `i` of the call (the pulls before it having delivered, with code 0,
messages that are malformed or carry the local id) yields a code other than 0
and `-EAGAIN`, the call does not return: it aborts in `errnum_assert` right
after that pull, with no message handed over; (3) on the queue engine, whose
pulls never fail, whatever messages are queued (malformed and loopback ones
included) the call returns, with code 0 or `-EAGAIN`. -/
theorem recv_two_outcomes {E : Type} (eng : Engine E) (bus : nn_bus E) (fuel : Nat) :
    (∀ rc st, nn_bus_recv eng fuel bus = Outcome.ret rc st → rc = 0 ∨ rc = -EAGAIN) ∧
      (∀ i, i < fuel →
        (∀ j, j < i → (eng.nn_xbus_recv (afterPulls eng j bus.xbus)).1 = 0 ∧
          ((eng.nn_xbus_recv (afterPulls eng j bus.xbus)).2.1.hdr.length ≠ 8 ∨
            nn_getll (eng.nn_xbus_recv (afterPulls eng j bus.xbus)).2.1.hdr = bus.nodeid)) →
        (eng.nn_xbus_recv (afterPulls eng i bus.xbus)).1 ≠ 0 →
        (eng.nn_xbus_recv (afterPulls eng i bus.xbus)).1 ≠ -EAGAIN →
        nn_bus_recv eng fuel bus =
          Outcome.abort (⟨afterPulls eng (i + 1) bus.xbus, bus.nodeid⟩, none)) ∧
      (∀ q s, List.length q < fuel →
        ∃ rc st, nn_bus_recv queueEngine fuel ⟨⟨q, s⟩, bus.nodeid⟩ = Outcome.ret rc st ∧
          (rc = 0 ∨ rc = -EAGAIN)) := by
  refine ⟨recv_ret_code eng fuel bus, ?_, ?_⟩
  · intro i hi hpre h0 h1
    exact recv_abort_at eng bus.nodeid i bus.xbus fuel hi hpre h0 h1
  · intro q s hq
    obtain ⟨rc, st, h⟩ := recv_queue_returns bus.nodeid s q fuel hq
    exact ⟨rc, st, h, recv_ret_code queueEngine fuel _ rc st h⟩

/-- Witness of C14: node 5 on a scripted engine whose first two pulls deliver
a malformed message and a message of node 5 itself and whose third pull fails
with `-EINVAL`: the call aborts after the third pull. -/
theorem recv_two_outcomes_witness :
    (2 < 3) ∧
      (∀ j, j < 2 →
        (scriptEngine.nn_xbus_recv (afterPulls scriptEngine j
          [(0, ⟨[1, 2, 3], [9]⟩), (0, ⟨[0, 0, 0, 0, 0, 0, 0, 5], [8]⟩), (-EINVAL, ⟨[], []⟩)])).1
            = 0 ∧
        ((scriptEngine.nn_xbus_recv (afterPulls scriptEngine j
          [(0, ⟨[1, 2, 3], [9]⟩), (0, ⟨[0, 0, 0, 0, 0, 0, 0, 5], [8]⟩),
            (-EINVAL, ⟨[], []⟩)])).2.1.hdr.length ≠ 8 ∨
          nn_getll (scriptEngine.nn_xbus_recv (afterPulls scriptEngine j
            [(0, ⟨[1, 2, 3], [9]⟩), (0, ⟨[0, 0, 0, 0, 0, 0, 0, 5], [8]⟩),
              (-EINVAL, ⟨[], []⟩)])).2.1.hdr = 5)) ∧
      (scriptEngine.nn_xbus_recv (afterPulls scriptEngine 2
        [(0, ⟨[1, 2, 3], [9]⟩), (0, ⟨[0, 0, 0, 0, 0, 0, 0, 5], [8]⟩), (-EINVAL, ⟨[], []⟩)])).1
          = -EINVAL ∧
      nn_bus_recv scriptEngine 3
          ⟨[(0, ⟨[1, 2, 3], [9]⟩), (0, ⟨[0, 0, 0, 0, 0, 0, 0, 5], [8]⟩), (-EINVAL, ⟨[], []⟩)], 5⟩ =
        Outcome.abort (⟨[], 5⟩, none) :=
  ⟨by decide, by decide, by decide,
   (recv_two_outcomes scriptEngine
      ⟨[(0, ⟨[1, 2, 3], [9]⟩), (0, ⟨[0, 0, 0, 0, 0, 0, 0, 5], [8]⟩), (-EINVAL, ⟨[], []⟩)], 5⟩
      3).2.1 2 (by decide) (by decide) (by decide) (by decide)⟩

/-- C15: for every engine, every socket `bus` and every sequence of calls of
`nn_bus_send`, `nn_bus_recv`, `nn_bus_sethdr` and `nn_bus_gethdr` (any inputs)
that all return, the socket `bus1` they leave has the node id of `bus`; so a
later `nn_bus_send` stamps, and a later `nn_bus_recv` compares against, the id
of `bus`, and however that later call ends (return or abort) the node id is
again the one of `bus`. -/
theorem nodeid_immutable {E : Type} (eng : Engine E) (bus bus1 : nn_bus E)
    (cs : List Call) (h : runCalls eng bus cs = some bus1) :
    bus1.nodeid = bus.nodeid ∧
      (∀ msg, nn_bus_send eng bus1 msg = nn_bus_send eng ⟨bus1.xbus, bus.nodeid⟩ msg) ∧
      (∀ fuel, nn_bus_recv eng fuel bus1 = nn_bus_recv eng fuel ⟨bus1.xbus, bus.nodeid⟩) ∧
      (∀ msg st, ((∃ rc, nn_bus_send eng bus1 msg = Outcome.ret rc st) ∨
          nn_bus_send eng bus1 msg = Outcome.abort st) → st.nodeid = bus.nodeid) ∧
      (∀ fuel st out, ((∃ rc, nn_bus_recv eng fuel bus1 = Outcome.ret rc (st, out)) ∨
          nn_bus_recv eng fuel bus1 = Outcome.abort (st, out)) → st.nodeid = bus.nodeid) := by
  have hid : bus1.nodeid = bus.nodeid := runCalls_nodeid eng cs bus bus1 h
  have hbus : bus1 = ⟨bus1.xbus, bus.nodeid⟩ := by
    rw [← hid]
  refine ⟨hid, ?_, ?_, ?_, ?_⟩
  · intro msg
    rw [← hbus]
  · intro fuel
    rw [← hbus]
  · intro msg st hs
    rw [send_nodeid eng bus1 msg st hs, hid]
  · intro fuel st out hs
    rw [recv_nodeid eng fuel bus1 st out hs, hid]

/-- Witness of C15: node 5 on the queue engine sends, sets a header, receives
the queued message of node 6 and gets a header; the node id is still 5. -/
theorem nodeid_immutable_witness :
    runCalls queueEngine ⟨⟨[⟨[0, 0, 0, 0, 0, 0, 0, 6], [8]⟩], []⟩, 5⟩
        [Call.send ⟨[], [1]⟩, Call.sethdr ⟨[], [1]⟩ [] 0, Call.recv 2,
          Call.gethdr ⟨[], [8]⟩ [] 0] =
        some ⟨⟨[], [⟨[0, 0, 0, 0, 0, 0, 0, 5], [1]⟩]⟩, 5⟩ ∧
      (⟨⟨[], [⟨[0, 0, 0, 0, 0, 0, 0, 5], [1]⟩]⟩, 5⟩ : nn_bus nn_xbus).nodeid =
        (⟨⟨[⟨[0, 0, 0, 0, 0, 0, 0, 6], [8]⟩], []⟩, 5⟩ : nn_bus nn_xbus).nodeid :=
  ⟨by decide,
   (nodeid_immutable queueEngine ⟨⟨[⟨[0, 0, 0, 0, 0, 0, 0, 6], [8]⟩], []⟩, 5⟩
      ⟨⟨[], [⟨[0, 0, 0, 0, 0, 0, 0, 5], [1]⟩]⟩, 5⟩
      [Call.send ⟨[], [1]⟩, Call.sethdr ⟨[], [1]⟩ [] 0, Call.recv 2,
        Call.gethdr ⟨[], [8]⟩ [] 0] (by decide)).1⟩

end Bus
